import Mathlib

/-!
Verification of the UCSC Genome Browser region-binning module
(`region-binning/region_binning.py`).

All genomic positions are one-based and inclusive.  Python integers are
modelled as `Int` at the API boundary; values that the code guarantees to be
non-negative (bin numbers, zero-based bin-space coordinates) are modelled as
`Nat` internally, with the conversion `Int.toNat` happening exactly where the
validated code begins using them.  Python's `>>` on non-negative integers is
division by a power of two and `<<` is multiplication by a power of two.
Python exceptions are modelled with `Except BinError`.
-/

namespace RegionBinning

/-- Constant `BIN_OFFSETS = [512 + 64 + 8 + 1, 64 + 8 + 1, 8 + 1, 1, 0]`. -/
def BIN_OFFSETS : List Nat := [512 + 64 + 8 + 1, 64 + 8 + 1, 8 + 1, 1, 0]

/-- Constant `SHIFT_FIRST = 17`. -/
def SHIFT_FIRST : Nat := 17

/-- Constant `SHIFT_NEXT = 3`. -/
def SHIFT_NEXT : Nat := 3

/-- Constant `MAX_POSITION = pow(2, 29)`. -/
def MAX_POSITION : Int := 2 ^ 29

/-- Constant `MAX_BIN = BIN_OFFSETS[0] + (MAX_POSITION - 1 >> SHIFT_FIRST)`. -/
def MAX_BIN : Int := (BIN_OFFSETS.headD 0 : Int) + (MAX_POSITION - 1) / 2 ^ SHIFT_FIRST

/-- The two kinds of exception the module can raise: `OutOfRangeError`, and
the bare `Exception` raised in `assign_bin` when the per-level scan is
exhausted. -/
inductive BinError where
  | outOfRange : BinError
  | internal : BinError
deriving DecidableEq, Repr

/-- The loop of `range_per_level` (lines 79-82): for each offset yield
`(offset + start_bin, offset + end_bin)` and then shift both bin values right
by `SHIFT_NEXT`. -/
def binLevels : List Nat → Nat → Nat → List (Nat × Nat)
  | [], _, _ => []
  | o :: os, sb, eb =>
      (o + sb, o + eb) :: binLevels os (sb / 2 ^ SHIFT_NEXT) (eb / 2 ^ SHIFT_NEXT)

/-- Function `range_per_level(start, end)`: swap if `start > end`, raise
`OutOfRangeError` if `start < 1 or end > MAX_POSITION`, otherwise yield the
per-level `(first, last)` bin pairs with `start_bin = start - 1 >> SHIFT_FIRST`
and `end_bin = end - 1 >> SHIFT_FIRST`.  The lazy generator is returned as the
finite list of the five pairs it yields. -/
def range_per_level (start «end» : Int) : Except BinError (List (Nat × Nat)) :=
  let p : Int × Int := if start > «end» then («end», start) else (start, «end»)
  if p.1 < 1 ∨ p.2 > MAX_POSITION then
    .error .outOfRange
  else
    .ok (binLevels BIN_OFFSETS ((p.1 - 1).toNat / 2 ^ SHIFT_FIRST)
          ((p.2 - 1).toNat / 2 ^ SHIFT_FIRST))

/-- Function `assign_bin(start, end)`: drop the per-level pairs while `first != last`
and return the first component of the next pair; an exhausted iterator raises
the internal "unexpected error" exception. -/
def assign_bin (start «end» : Int) : Except BinError Nat :=
  match range_per_level start «end» with
  | .error e => .error e
  | .ok levels =>
      match (levels.dropWhile (fun p => p.1 != p.2)).head? with
      | none => .error .internal
      | some p => .ok p.1

/-- Function `all_bins(start, end=None)`: a falsy `end` (omitted, `None`, or `0`) is
replaced by `start`; then every bin in `range(first, last + 1)` is listed for
each per-level pair.  `range(first, last + 1)` is `List.range' first
(last + 1 - first)`. -/
def all_bins (start : Int) (endOpt : Option Int) : Except BinError (List Nat) :=
  let e : Int := match endOpt with
    | none => start
    | some v => if v = 0 then start else v
  match range_per_level start e with
  | .error err => .error err
  | .ok levels => .ok (levels.flatMap fun p => List.range' p.1 (p.2 + 1 - p.1))

/-- The loop of `covered_region` (lines 158-162): scan the offsets with
`shift` starting at `SHIFT_FIRST` and growing by `SHIFT_NEXT`, returning
`((bin - offset << shift) + 1, bin + 1 - offset << shift)` at the first offset
`<= bin`; Python's implicit fall-through (no offset matches) returns `None`. -/
def coveredScan : List Nat → Nat → Int → Option (Int × Int)
  | [], _, _ => none
  | o :: os, shift, bin =>
      if (o : Int) ≤ bin then
        some ((bin - (o : Int)) * 2 ^ shift + 1, (bin + 1 - (o : Int)) * 2 ^ shift)
      else
        coveredScan os (shift + SHIFT_NEXT) bin

/-- Function `covered_region(bin)`: raise `OutOfRangeError` if `bin < 0 or
bin > MAX_BIN`, otherwise scan the offsets as in `coveredScan`. -/
def covered_region (bin : Int) : Except BinError (Option (Int × Int)) :=
  if bin < 0 ∨ bin > MAX_BIN then .error .outOfRange
  else .ok (coveredScan BIN_OFFSETS SHIFT_FIRST bin)

/-! ## Helper lemmas -/

lemma MAX_BIN_eq : MAX_BIN = 4680 := by decide

lemma toNat_sub_one {s : Int} (hs : 1 ≤ s) : ((s - 1).toNat : Int) = s - 1 :=
  Int.toNat_of_nonneg (by omega)

/-- Rounding a position down to a bin boundary does not move it up: the
decoded start of the bin containing `s` is at most `s`. -/
lemma bin_floor_le {s : Int} (hs : 1 ≤ s) (M : Nat) :
    ((s - 1).toNat / M * M : Nat) + 1 ≤ s := by
  have h : (((s - 1).toNat / M * M : Nat) : Int) ≤ ((s - 1).toNat : Int) := by
    exact_mod_cast Nat.div_mul_le_self (s - 1).toNat M
  have h2 := toNat_sub_one hs
  omega

/-- The decoded end of the bin containing `e` is at least `e`. -/
lemma bin_ceil_ge {e : Int} (he : 1 ≤ e) {M : Nat} (hM : 0 < M) :
    e ≤ (((e - 1).toNat / M + 1) * M : Nat) := by
  have h3 : (e - 1).toNat < ((e - 1).toNat / M + 1) * M :=
    (Nat.div_lt_iff_lt_mul hM).mp (Nat.lt_succ_self _)
  have h4 : ((e - 1).toNat : Int) < ((((e - 1).toNat / M + 1) * M : Nat) : Int) := by
    exact_mod_cast h3
  have h2 := toNat_sub_one he
  omega

/-- Explicit value of `range_per_level` on a validated, already-normalized
region: the five per-level pairs, with the composed shifts
`17, 17+3, 17+6, 17+9, 17+12`. -/
lemma range_per_level_eval {s e : Int} (hs : 1 ≤ s) (hse : s ≤ e)
    (he : e ≤ MAX_POSITION) :
    range_per_level s e = .ok
      [(585 + (s - 1).toNat / 2 ^ 17, 585 + (e - 1).toNat / 2 ^ 17),
       (73 + (s - 1).toNat / 2 ^ 20, 73 + (e - 1).toNat / 2 ^ 20),
       (9 + (s - 1).toNat / 2 ^ 23, 9 + (e - 1).toNat / 2 ^ 23),
       (1 + (s - 1).toNat / 2 ^ 26, 1 + (e - 1).toNat / 2 ^ 26),
       ((s - 1).toNat / 2 ^ 29, (e - 1).toNat / 2 ^ 29)] := by
  simp only [range_per_level]
  rw [if_neg (by omega : ¬ s > e)]
  rw [if_neg (by push_neg; exact ⟨by omega, by omega⟩ : ¬ ((s, e).1 < 1 ∨ (s, e).2 > MAX_POSITION))]
  simp only [binLevels, BIN_OFFSETS, SHIFT_FIRST, SHIFT_NEXT,
    Nat.div_div_eq_div_mul]
  norm_num

/-- Explicit value of the `covered_region` offset scan as nested range
tests on the bin number. -/
lemma coveredScan_eval (b : Int) :
    coveredScan BIN_OFFSETS SHIFT_FIRST b =
      if 585 ≤ b then some ((b - 585) * 2 ^ 17 + 1, (b + 1 - 585) * 2 ^ 17)
      else if 73 ≤ b then some ((b - 73) * 2 ^ 20 + 1, (b + 1 - 73) * 2 ^ 20)
      else if 9 ≤ b then some ((b - 9) * 2 ^ 23 + 1, (b + 1 - 9) * 2 ^ 23)
      else if 1 ≤ b then some ((b - 1) * 2 ^ 26 + 1, (b + 1 - 1) * 2 ^ 26)
      else if 0 ≤ b then some (b * 2 ^ 29 + 1, (b + 1) * 2 ^ 29)
      else none := by
  simp only [coveredScan, BIN_OFFSETS, SHIFT_FIRST, SHIFT_NEXT]
  norm_num

lemma assign_bin_eq {s e : Int} {L : List (Nat × Nat)}
    (hL : range_per_level s e = .ok L) :
    assign_bin s e =
      match (L.dropWhile (fun p => p.1 != p.2)).head? with
      | none => .error .internal
      | some p => .ok p.1 := by
  unfold assign_bin
  rw [hL]

/-- Master lemma on a validated normalized region: `assign_bin` succeeds,
the assigned bin is at most `4680`, it is the first component of the head of
the `dropWhile` scan (whose pair has equal components), and decoding it gives
a region containing the input. -/
lemma assign_covered_master {s e : Int} (hs : 1 ≤ s) (hse : s ≤ e)
    (he : e ≤ MAX_POSITION) :
    ∃ b : Nat,
      assign_bin s e = .ok b ∧
      b ≤ 4680 ∧
      (∃ L, range_per_level s e = .ok L ∧
        (L.dropWhile (fun p => p.1 != p.2)).head? = some (b, b)) ∧
      ∃ r : Int × Int, covered_region (b : Int) = .ok (some r) ∧
        r.1 ≤ s ∧ e ≤ r.2 := by
  have hrpl := range_per_level_eval hs hse he
  have h1e : (1 : Int) ≤ e := le_trans hs hse
  have he' : e ≤ 2 ^ 29 := he
  by_cases h0 : (s - 1).toNat / 2 ^ 17 = (e - 1).toNat / 2 ^ 17
  · have hdw : (([(585 + (s - 1).toNat / 2 ^ 17, 585 + (e - 1).toNat / 2 ^ 17),
          (73 + (s - 1).toNat / 2 ^ 20, 73 + (e - 1).toNat / 2 ^ 20),
          (9 + (s - 1).toNat / 2 ^ 23, 9 + (e - 1).toNat / 2 ^ 23),
          (1 + (s - 1).toNat / 2 ^ 26, 1 + (e - 1).toNat / 2 ^ 26),
          ((s - 1).toNat / 2 ^ 29, (e - 1).toNat / 2 ^ 29)]).dropWhile (fun p => p.1 != p.2)) =
        (585 + (s - 1).toNat / 2 ^ 17, 585 + (e - 1).toNat / 2 ^ 17) ::
        [(73 + (s - 1).toNat / 2 ^ 20, 73 + (e - 1).toNat / 2 ^ 20),
           (9 + (s - 1).toNat / 2 ^ 23, 9 + (e - 1).toNat / 2 ^ 23),
           (1 + (s - 1).toNat / 2 ^ 26, 1 + (e - 1).toNat / 2 ^ 26),
           ((s - 1).toNat / 2 ^ 29, (e - 1).toNat / 2 ^ 29)] := by
      rw [
          List.dropWhile_cons_of_neg (by simp only [bne_iff_ne, ne_eq, not_not]; omega)]
    refine ⟨585 + (s - 1).toNat / 2 ^ 17, ?_, by omega, ⟨_, hrpl, ?_⟩, ?_⟩
    · rw [assign_bin_eq hrpl, hdw, List.head?_cons]
    · rw [hdw, List.head?_cons, h0]
    · unfold covered_region
      rw [if_neg (by simp only [MAX_BIN_eq]; omega), coveredScan_eval]
      rw [if_pos (by omega)]
      exact ⟨((((585 + (s - 1).toNat / 2 ^ 17 : Nat) : Int) - 585) * 2 ^ 17 + 1, (((585 + (s - 1).toNat / 2 ^ 17 : Nat) : Int) + 1 - 585) * 2 ^ 17), rfl, by dsimp only; omega, by dsimp only; omega⟩
  · by_cases h1 : (s - 1).toNat / 2 ^ 20 = (e - 1).toNat / 2 ^ 20
    · have hdw : (([(585 + (s - 1).toNat / 2 ^ 17, 585 + (e - 1).toNat / 2 ^ 17),
          (73 + (s - 1).toNat / 2 ^ 20, 73 + (e - 1).toNat / 2 ^ 20),
          (9 + (s - 1).toNat / 2 ^ 23, 9 + (e - 1).toNat / 2 ^ 23),
          (1 + (s - 1).toNat / 2 ^ 26, 1 + (e - 1).toNat / 2 ^ 26),
          ((s - 1).toNat / 2 ^ 29, (e - 1).toNat / 2 ^ 29)]).dropWhile (fun p => p.1 != p.2)) =
          (73 + (s - 1).toNat / 2 ^ 20, 73 + (e - 1).toNat / 2 ^ 20) ::
          [(9 + (s - 1).toNat / 2 ^ 23, 9 + (e - 1).toNat / 2 ^ 23),
           (1 + (s - 1).toNat / 2 ^ 26, 1 + (e - 1).toNat / 2 ^ 26),
           ((s - 1).toNat / 2 ^ 29, (e - 1).toNat / 2 ^ 29)] := by
        rw [
            List.dropWhile_cons_of_pos (by simp only [bne_iff_ne, ne_eq]; omega),
            List.dropWhile_cons_of_neg (by simp only [bne_iff_ne, ne_eq, not_not]; omega)]
      refine ⟨73 + (s - 1).toNat / 2 ^ 20, ?_, by omega, ⟨_, hrpl, ?_⟩, ?_⟩
      · rw [assign_bin_eq hrpl, hdw, List.head?_cons]
      · rw [hdw, List.head?_cons, h1]
      · unfold covered_region
        rw [if_neg (by simp only [MAX_BIN_eq]; omega), coveredScan_eval]
        rw [if_neg (by omega), if_pos (by omega)]
        exact ⟨((((73 + (s - 1).toNat / 2 ^ 20 : Nat) : Int) - 73) * 2 ^ 20 + 1, (((73 + (s - 1).toNat / 2 ^ 20 : Nat) : Int) + 1 - 73) * 2 ^ 20), rfl, by dsimp only; omega, by dsimp only; omega⟩
    · by_cases h2 : (s - 1).toNat / 2 ^ 23 = (e - 1).toNat / 2 ^ 23
      · have hdw : (([(585 + (s - 1).toNat / 2 ^ 17, 585 + (e - 1).toNat / 2 ^ 17),
          (73 + (s - 1).toNat / 2 ^ 20, 73 + (e - 1).toNat / 2 ^ 20),
          (9 + (s - 1).toNat / 2 ^ 23, 9 + (e - 1).toNat / 2 ^ 23),
          (1 + (s - 1).toNat / 2 ^ 26, 1 + (e - 1).toNat / 2 ^ 26),
          ((s - 1).toNat / 2 ^ 29, (e - 1).toNat / 2 ^ 29)]).dropWhile (fun p => p.1 != p.2)) =
            (9 + (s - 1).toNat / 2 ^ 23, 9 + (e - 1).toNat / 2 ^ 23) ::
            [(1 + (s - 1).toNat / 2 ^ 26, 1 + (e - 1).toNat / 2 ^ 26),
           ((s - 1).toNat / 2 ^ 29, (e - 1).toNat / 2 ^ 29)] := by
          rw [
              List.dropWhile_cons_of_pos (by simp only [bne_iff_ne, ne_eq]; omega),
              List.dropWhile_cons_of_pos (by simp only [bne_iff_ne, ne_eq]; omega),
              List.dropWhile_cons_of_neg (by simp only [bne_iff_ne, ne_eq, not_not]; omega)]
        refine ⟨9 + (s - 1).toNat / 2 ^ 23, ?_, by omega, ⟨_, hrpl, ?_⟩, ?_⟩
        · rw [assign_bin_eq hrpl, hdw, List.head?_cons]
        · rw [hdw, List.head?_cons, h2]
        · unfold covered_region
          rw [if_neg (by simp only [MAX_BIN_eq]; omega), coveredScan_eval]
          rw [if_neg (by omega), if_neg (by omega), if_pos (by omega)]
          exact ⟨((((9 + (s - 1).toNat / 2 ^ 23 : Nat) : Int) - 9) * 2 ^ 23 + 1, (((9 + (s - 1).toNat / 2 ^ 23 : Nat) : Int) + 1 - 9) * 2 ^ 23), rfl, by dsimp only; omega, by dsimp only; omega⟩
      · by_cases h3 : (s - 1).toNat / 2 ^ 26 = (e - 1).toNat / 2 ^ 26
        · have hdw : (([(585 + (s - 1).toNat / 2 ^ 17, 585 + (e - 1).toNat / 2 ^ 17),
          (73 + (s - 1).toNat / 2 ^ 20, 73 + (e - 1).toNat / 2 ^ 20),
          (9 + (s - 1).toNat / 2 ^ 23, 9 + (e - 1).toNat / 2 ^ 23),
          (1 + (s - 1).toNat / 2 ^ 26, 1 + (e - 1).toNat / 2 ^ 26),
          ((s - 1).toNat / 2 ^ 29, (e - 1).toNat / 2 ^ 29)]).dropWhile (fun p => p.1 != p.2)) =
              (1 + (s - 1).toNat / 2 ^ 26, 1 + (e - 1).toNat / 2 ^ 26) ::
              [((s - 1).toNat / 2 ^ 29, (e - 1).toNat / 2 ^ 29)] := by
            rw [
                List.dropWhile_cons_of_pos (by simp only [bne_iff_ne, ne_eq]; omega),
                List.dropWhile_cons_of_pos (by simp only [bne_iff_ne, ne_eq]; omega),
                List.dropWhile_cons_of_pos (by simp only [bne_iff_ne, ne_eq]; omega),
                List.dropWhile_cons_of_neg (by simp only [bne_iff_ne, ne_eq, not_not]; omega)]
          refine ⟨1 + (s - 1).toNat / 2 ^ 26, ?_, by omega, ⟨_, hrpl, ?_⟩, ?_⟩
          · rw [assign_bin_eq hrpl, hdw, List.head?_cons]
          · rw [hdw, List.head?_cons, h3]
          · unfold covered_region
            rw [if_neg (by simp only [MAX_BIN_eq]; omega), coveredScan_eval]
            rw [if_neg (by omega), if_neg (by omega), if_neg (by omega), if_pos (by omega)]
            exact ⟨((((1 + (s - 1).toNat / 2 ^ 26 : Nat) : Int) - 1) * 2 ^ 26 + 1, (((1 + (s - 1).toNat / 2 ^ 26 : Nat) : Int) + 1 - 1) * 2 ^ 26), rfl, by dsimp only; omega, by dsimp only; omega⟩
        · have h4 : (s - 1).toNat / 2 ^ 29 = (e - 1).toNat / 2 ^ 29 := by omega
          have hdw : (([(585 + (s - 1).toNat / 2 ^ 17, 585 + (e - 1).toNat / 2 ^ 17),
          (73 + (s - 1).toNat / 2 ^ 20, 73 + (e - 1).toNat / 2 ^ 20),
          (9 + (s - 1).toNat / 2 ^ 23, 9 + (e - 1).toNat / 2 ^ 23),
          (1 + (s - 1).toNat / 2 ^ 26, 1 + (e - 1).toNat / 2 ^ 26),
          ((s - 1).toNat / 2 ^ 29, (e - 1).toNat / 2 ^ 29)]).dropWhile (fun p => p.1 != p.2)) =
              ((s - 1).toNat / 2 ^ 29, (e - 1).toNat / 2 ^ 29) ::
              [] := by
            rw [
                List.dropWhile_cons_of_pos (by simp only [bne_iff_ne, ne_eq]; omega),
                List.dropWhile_cons_of_pos (by simp only [bne_iff_ne, ne_eq]; omega),
                List.dropWhile_cons_of_pos (by simp only [bne_iff_ne, ne_eq]; omega),
                List.dropWhile_cons_of_pos (by simp only [bne_iff_ne, ne_eq]; omega),
                List.dropWhile_cons_of_neg (by simp only [bne_iff_ne, ne_eq, not_not]; omega)]
          refine ⟨(s - 1).toNat / 2 ^ 29, ?_, by omega, ⟨_, hrpl, ?_⟩, ?_⟩
          · rw [assign_bin_eq hrpl, hdw, List.head?_cons]
          · rw [hdw, List.head?_cons, h4]
          · unfold covered_region
            rw [if_neg (by simp only [MAX_BIN_eq]; omega), coveredScan_eval]
            rw [if_neg (by omega), if_neg (by omega), if_neg (by omega), if_neg (by omega), if_pos (by omega)]
            exact ⟨((((s - 1).toNat / 2 ^ 29 : Nat) : Int) * 2 ^ 29 + 1, ((((s - 1).toNat / 2 ^ 29 : Nat) : Int) + 1) * 2 ^ 29), rfl, by dsimp only; omega, by dsimp only; omega⟩

/-- Evaluation of `all_bins` when the provided end is non-falsy and the
per-level generator succeeds. -/
lemma all_bins_eval {s e : Int} (he : e ≠ 0) {L : List (Nat × Nat)}
    (hL : range_per_level s e = .ok L) :
    all_bins s (some e) = .ok (L.flatMap fun p => List.range' p.1 (p.2 + 1 - p.1)) := by
  simp only [all_bins]
  rw [if_neg he, hL]

/-- Propagation of the out-of-range error through `all_bins` when the
provided end is non-falsy. -/
lemma all_bins_err {s e : Int} (hne : e ≠ 0)
    (h : range_per_level s e = .error .outOfRange) :
    all_bins s (some e) = .error .outOfRange := by
  simp only [all_bins]
  rw [if_neg hne, h]

/-- Swapping the two arguments leaves `range_per_level` unchanged. -/
lemma range_per_level_comm (s e : Int) :
    range_per_level s e = range_per_level e s := by
  simp only [range_per_level]
  rcases lt_trichotomy s e with h | h | h
  · rw [if_neg (by omega : ¬ s > e), if_pos (by omega : e > s)]
  · rw [h]
  · rw [if_pos (by omega : s > e), if_neg (by omega : ¬ e > s)]

/-- Normalization: `range_per_level` only depends on the normalized
(sorted) pair of endpoints. -/
lemma range_per_level_norm (s e : Int) :
    range_per_level s e = range_per_level (min s e) (max s e) := by
  rcases le_total s e with h | h
  · rw [min_eq_left h, max_eq_right h]
  · rw [min_eq_right h, max_eq_left h, range_per_level_comm]

/-- Lemma: `assign_bin` is a function of `range_per_level`'s output. -/
lemma assign_bin_congr {s e u v : Int}
    (h : range_per_level s e = range_per_level u v) :
    assign_bin s e = assign_bin u v := by
  unfold assign_bin
  rw [h]

/-- Out-of-range rejection of `range_per_level`: the error is raised
exactly when the normalized start is below 1 or the normalized end is above
`MAX_POSITION`. -/
lemma range_per_level_err {s e : Int}
    (h : min s e < 1 ∨ MAX_POSITION < max s e) :
    range_per_level s e = .error .outOfRange := by
  simp only [range_per_level]
  rcases le_total s e with hse | hse
  · rw [min_eq_left hse, max_eq_right hse] at h
    rw [if_neg (by omega : ¬ s > e), if_pos]
    exact h
  · rcases lt_or_eq_of_le hse with hlt | heq
    · rw [min_eq_right hse, max_eq_left hse] at h
      rw [if_pos (by omega : s > e), if_pos]
      exact h
    · rw [heq] at h ⊢
      rw [min_self, max_self] at h
      rw [if_neg (by omega : ¬ s > s), if_pos]
      exact h


example : MAX_BIN = 4680 := by decide
example : assign_bin 100000 100000 = .ok 585 := by rfl
example : assign_bin 1 MAX_POSITION = .ok 0 := by rfl
example : covered_region 0 = .ok (some (1, MAX_POSITION)) := by rfl
example : covered_region (-1) = .error .outOfRange := by rfl
example : assign_bin 0 1 = .error .outOfRange := by rfl
example : all_bins 1 (some 0) = .ok [585, 73, 9, 1, 0] := by rfl
example : all_bins 100000 (some 100005) = .ok [585, 73, 9, 1, 0] := by rfl


/-! ## Claim theorems -/

/-- C1: for every region with `1 <= min(start, end)` and
`max(start, end) <= MAX_POSITION`, decoding the bin assigned by
`assign_bin` yields a region that contains the normalized input region:
the decoded start is at most the normalized start and the decoded end is
at least the normalized end. -/
theorem C1_roundtrip_containment (start «end» : Int)
    (h1 : 1 ≤ min start «end») (h2 : max start «end» ≤ MAX_POSITION) :
    ∃ (b : Nat) (r : Int × Int),
      assign_bin start «end» = .ok b ∧
      covered_region (b : Int) = .ok (some r) ∧
      r.1 ≤ min start «end» ∧ max start «end» ≤ r.2 := by
  obtain ⟨b, hab, _, _, r, hcov, hr1, hr2⟩ :=
    assign_covered_master h1 min_le_max h2
  exact ⟨b, r,
    by rw [assign_bin_congr (range_per_level_norm start «end»)]; exact hab,
    hcov, hr1, hr2⟩

/-- Witness for C1 at the concrete region (100000, 100005). -/
theorem C1_roundtrip_containment_witness :
    ∃ (b : Nat) (r : Int × Int),
      assign_bin 100000 100005 = .ok b ∧
      covered_region (b : Int) = .ok (some r) ∧
      r.1 ≤ min (100000 : Int) 100005 ∧ max (100000 : Int) 100005 ≤ r.2 :=
  C1_roundtrip_containment 100000 100005 (by decide) (by decide)

/-- C2: for every validated region the coarsest (last) pair produced by
`range_per_level` is `(0, 0)` -- both components equal the root bin 0 --
and consequently `assign_bin` terminates with the first component of the
first (finest) pair whose two components agree, never reaching the
internal exhaustion error. -/
theorem C2_coarsest_level_collapses (start «end» : Int)
    (h1 : 1 ≤ min start «end») (h2 : max start «end» ≤ MAX_POSITION) :
    ∃ L : List (Nat × Nat),
      range_per_level start «end» = .ok L ∧
      L.getLast? = some (0, 0) ∧
      ∃ b : Nat,
        (L.dropWhile (fun p => p.1 != p.2)).head? = some (b, b) ∧
        assign_bin start «end» = .ok b := by
  have hn := range_per_level_norm start «end»
  obtain ⟨b, hab, _, ⟨L, hL, hdw⟩, _⟩ := assign_covered_master h1 min_le_max h2
  have hLe := range_per_level_eval h1 min_le_max h2
  rw [hL] at hLe
  have hLeq := Except.ok.inj hLe
  refine ⟨L, by rw [hn]; exact hL, ?_, b, hdw,
    by rw [assign_bin_congr hn]; exact hab⟩
  rw [hLeq]
  have h2' : max start «end» ≤ 2 ^ 29 := h2
  simp only [List.getLast?_cons_cons, List.getLast?_singleton,
    Option.some.injEq, Prod.mk.injEq]
  constructor
  · omega
  · omega

/-- Witness for C2 at the concrete region (100000, 100005). -/
theorem C2_coarsest_level_collapses_witness :
    ∃ L : List (Nat × Nat),
      range_per_level 100000 100005 = .ok L ∧
      L.getLast? = some (0, 0) ∧
      ∃ b : Nat,
        (L.dropWhile (fun p => p.1 != p.2)).head? = some (b, b) ∧
        assign_bin 100000 100005 = .ok b :=
  C2_coarsest_level_collapses 100000 100005 (by decide) (by decide)

/-- C8: `assign_bin` gives the same bin regardless of the order of its
two arguments (order-independence after normalization). -/
theorem C8_symmetry (start «end» : Int)
    (_h1 : 1 ≤ min start «end») (_h2 : max start «end» ≤ MAX_POSITION) :
    assign_bin start «end» = assign_bin «end» start :=
  assign_bin_congr (range_per_level_comm start «end»)

/-- Witness for C8 at the concrete pair (100000, 100005). -/
theorem C8_symmetry_witness :
    assign_bin 100000 100005 = assign_bin 100005 100000 :=
  C8_symmetry 100000 100005 (by decide) (by decide)

/-- C9: for every valid region the bin returned by `assign_bin` lies in
`[0, MAX_BIN]` with `MAX_BIN = 4680`, so `covered_region` applied to it
does not raise `OutOfRange` and its per-offset scan finds a matching
level (returns a region rather than falling through to `none`). -/
theorem C9_assigned_bin_in_range (start «end» : Int)
    (h1 : 1 ≤ min start «end») (h2 : max start «end» ≤ MAX_POSITION) :
    MAX_BIN = 4680 ∧
    ∃ b : Nat, assign_bin start «end» = .ok b ∧ (b : Int) ≤ MAX_BIN ∧
      ∃ r : Int × Int, covered_region (b : Int) = .ok (some r) := by
  obtain ⟨b, hab, hble, _, r, hcov, _, _⟩ :=
    assign_covered_master h1 min_le_max h2
  refine ⟨MAX_BIN_eq, b, ?_, ?_, r, hcov⟩
  · rw [assign_bin_congr (range_per_level_norm start «end»)]
    exact hab
  · rw [MAX_BIN_eq]
    exact_mod_cast hble

/-- Witness for C9 at the concrete region (100000, 100005). -/
theorem C9_assigned_bin_in_range_witness :
    MAX_BIN = 4680 ∧
    ∃ b : Nat, assign_bin 100000 100005 = .ok b ∧ (b : Int) ≤ MAX_BIN ∧
      ∃ r : Int × Int, covered_region (b : Int) = .ok (some r) :=
  C9_assigned_bin_in_range 100000 100005 (by decide) (by decide)

/-- C10: a falsy end argument (omitted `None`, or `0`) makes `all_bins`
treat the region as the single position (start, start); in particular
`all_bins start (some 0)` does not raise `OutOfRange` -- even though an
end of 0 is below the minimum position -- and returns the same list as
`all_bins start (some start)`. -/
theorem C10_falsy_end (start : Int) (h1 : 1 ≤ start) (h2 : start ≤ MAX_POSITION) :
    all_bins start none = all_bins start (some start) ∧
    all_bins start (some 0) = all_bins start (some start) ∧
    ∃ l, all_bins start (some 0) = .ok l := by
  have hz : all_bins start (some 0) = all_bins start (some start) := by
    simp only [all_bins]
    norm_num
  refine ⟨?_, hz, ?_⟩
  · simp only [all_bins, ite_self]
  · rw [hz, all_bins_eval (by omega) (range_per_level_eval h1 le_rfl h2)]
    exact ⟨_, rfl⟩

/-- Witness for C10 at the concrete position 100000. -/
theorem C10_falsy_end_witness :
    all_bins 100000 none = all_bins 100000 (some 100000) ∧
    all_bins 100000 (some 0) = all_bins 100000 (some 100000) ∧
    ∃ l, all_bins 100000 (some 0) = .ok l :=
  C10_falsy_end 100000 (by decide) (by decide)



/-- C3 fails as stated for `all_bins`: with the input pair (1, 0) the
normalized start `min 1 0 = 0` is below the minimum position 1, so the
claim requires an `OutOfRange` failure, but `all_bins` treats the falsy
end 0 as "not provided", replaces it by the start, and succeeds. -/
theorem C3_counterexample :
    min (1 : Int) 0 < 1 ∧
    all_bins 1 (some 0) = .ok [585, 73, 9, 1, 0] ∧
    ¬ all_bins 1 (some 0) = .error .outOfRange := by
  refine ⟨by decide, rfl, fun h => ?_⟩
  rw [show all_bins 1 (some 0) = .ok [585, 73, 9, 1, 0] from rfl] at h
  exact Except.noConfusion h

/-- C3 (amended): `range_per_level` and `assign_bin` on every input pair,
and `all_bins` whenever the provided end is non-falsy (nonzero), first
swap the endpoints when start > end and then fail with `OutOfRange`
exactly when the normalized start is below 1 or the normalized end
exceeds `MAX_POSITION`; otherwise they produce a result. -/
theorem C3_normalize_validate_reject (start «end» : Int) :
    (range_per_level start «end» = .error .outOfRange ↔
      (min start «end» < 1 ∨ MAX_POSITION < max start «end»)) ∧
    (assign_bin start «end» = .error .outOfRange ↔
      (min start «end» < 1 ∨ MAX_POSITION < max start «end»)) ∧
    («end» ≠ 0 →
      (all_bins start (some «end») = .error .outOfRange ↔
        (min start «end» < 1 ∨ MAX_POSITION < max start «end»))) ∧
    (¬ (min start «end» < 1 ∨ MAX_POSITION < max start «end») →
      (∃ L, range_per_level start «end» = .ok L) ∧
      (∃ b, assign_bin start «end» = .ok b) ∧
      («end» ≠ 0 → ∃ l, all_bins start (some «end») = .ok l)) := by
  by_cases hP : min start «end» < 1 ∨ MAX_POSITION < max start «end»
  · have herr := range_per_level_err hP
    have haerr : assign_bin start «end» = .error .outOfRange := by
      unfold assign_bin
      rw [herr]
    exact ⟨⟨fun _ => hP, fun _ => herr⟩, ⟨fun _ => hP, fun _ => haerr⟩,
      fun hne => ⟨fun _ => hP, fun _ => all_bins_err hne herr⟩,
      fun hnP => absurd hP hnP⟩
  · have h1 : 1 ≤ min start «end» := by omega
    have h2 : max start «end» ≤ MAX_POSITION := by
      push_neg at hP
      exact hP.2
    obtain ⟨b, hab, _, ⟨L, hL, _⟩, _⟩ := assign_covered_master h1 min_le_max h2
    have hrpl : range_per_level start «end» = .ok L :=
      (range_per_level_norm start «end»).trans hL
    have hab' : assign_bin start «end» = .ok b := by
      rw [assign_bin_congr (range_per_level_norm start «end»)]
      exact hab
    refine ⟨⟨fun h => absurd (hrpl.symm.trans h) (by simp),
        fun h => absurd h hP⟩,
      ⟨fun h => absurd (hab'.symm.trans h) (by simp),
        fun h => absurd h hP⟩,
      fun hne => ⟨fun h => absurd ((all_bins_eval hne hrpl).symm.trans h) (by simp),
        fun h => absurd h hP⟩,
      fun _ => ⟨⟨L, hrpl⟩, ⟨b, hab'⟩, fun hne => ⟨_, all_bins_eval hne hrpl⟩⟩⟩

/-- Witness for the amended C3 at the concrete pair (0, 1): the
normalized start 0 is below 1 and `range_per_level` rejects it. -/
theorem C3_normalize_validate_reject_witness :
    range_per_level 0 1 = .error .outOfRange ↔
      (min (0 : Int) 1 < 1 ∨ MAX_POSITION < max (0 : Int) 1) :=
  (C3_normalize_validate_reject 0 1).1

/-- C4: for every valid region, `all_bins` returns a non-empty list that
contains the bin returned by `assign_bin`. -/
theorem C4_all_bins_contains_assigned (start «end» : Int)
    (h1 : 1 ≤ min start «end») (h2 : max start «end» ≤ MAX_POSITION) :
    ∃ (bins : List Nat) (b : Nat),
      all_bins start (some «end») = .ok bins ∧
      assign_bin start «end» = .ok b ∧
      bins ≠ [] ∧ b ∈ bins := by
  have hn := range_per_level_norm start «end»
  obtain ⟨b, hab, _, ⟨L, hL, hdw⟩, _⟩ := assign_covered_master h1 min_le_max h2
  have hrpl : range_per_level start «end» = .ok L := hn.trans hL
  have hne : («end» : Int) ≠ 0 := by omega
  have hmem_pair : ((b, b) : Nat × Nat) ∈ L :=
    List.Sublist.mem (List.mem_of_mem_head? (Option.mem_def.mpr hdw))
      (List.dropWhile_sublist _)
  have hmem : b ∈ L.flatMap fun p => List.range' p.1 (p.2 + 1 - p.1) :=
    List.mem_flatMap.mpr ⟨(b, b), hmem_pair,
      by simp only [List.mem_range'_1]; omega⟩
  exact ⟨_, b, all_bins_eval hne hrpl,
    by rw [assign_bin_congr hn]; exact hab,
    List.ne_nil_of_mem hmem, hmem⟩

/-- Witness for C4 at the concrete region (100000, 100005). -/
theorem C4_all_bins_contains_assigned_witness :
    ∃ (bins : List Nat) (b : Nat),
      all_bins 100000 (some 100005) = .ok bins ∧
      assign_bin 100000 100005 = .ok b ∧
      bins ≠ [] ∧ b ∈ bins :=
  C4_all_bins_contains_assigned 100000 100005 (by decide) (by decide)

/-- C5: for every valid region, `all_bins` is exactly the concatenation,
level by level from finest to coarsest, of all integers in the closed
interval `[firstBin, lastBin]` of that level's pair from
`range_per_level`, with each level's segment listed in ascending order. -/
theorem C5_all_bins_enumeration (start «end» : Int)
    (h1 : 1 ≤ min start «end») (h2 : max start «end» ≤ MAX_POSITION) :
    ∃ (L : List (Nat × Nat)) (bins : List Nat),
      range_per_level start «end» = .ok L ∧
      all_bins start (some «end») = .ok bins ∧
      bins = L.flatMap (fun p => List.range' p.1 (p.2 + 1 - p.1)) ∧
      (∀ p ∈ L, ∀ x : Nat,
        x ∈ List.range' p.1 (p.2 + 1 - p.1) ↔ p.1 ≤ x ∧ x ≤ p.2) ∧
      (∀ p ∈ L, (List.range' p.1 (p.2 + 1 - p.1)).Pairwise (· < ·)) := by
  have hrpl := (range_per_level_norm start «end»).trans
    (range_per_level_eval h1 min_le_max h2)
  have hne : («end» : Int) ≠ 0 := by omega
  have h2' : max start «end» ≤ 2 ^ 29 := h2
  refine ⟨_, _, hrpl, all_bins_eval hne hrpl, rfl, ?_, ?_⟩
  · intro p hp x
    fin_cases hp <;> dsimp only <;> rw [List.mem_range'_1] <;> omega
  · intro p hp
    exact List.pairwise_lt_range' _ _

/-- Witness for C5 at the concrete region (100000, 100005). -/
theorem C5_all_bins_enumeration_witness :
    ∃ (L : List (Nat × Nat)) (bins : List Nat),
      range_per_level 100000 100005 = .ok L ∧
      all_bins 100000 (some 100005) = .ok bins ∧
      bins = L.flatMap (fun p => List.range' p.1 (p.2 + 1 - p.1)) ∧
      (∀ p ∈ L, ∀ x : Nat,
        x ∈ List.range' p.1 (p.2 + 1 - p.1) ↔ p.1 ≤ x ∧ x ≤ p.2) ∧
      (∀ p ∈ L, (List.range' p.1 (p.2 + 1 - p.1)).Pairwise (· < ·)) :=
  C5_all_bins_enumeration 100000 100005 (by decide) (by decide)

/-- C6: for every bin in `[0, MAX_BIN]`, `covered_region` selects the
level whose offset is the largest offset at most the bin (the first hit
of the descending offset scan), uses
`shift = SHIFT_FIRST + SHIFT_NEXT * level`, and returns
`(((bin - offset) << shift) + 1, (bin + 1 - offset) << shift)`; in
particular `covered_region 0` returns `(1, MAX_POSITION)`. -/
theorem C6_inverse_decode (bin : Int) (h0 : 0 ≤ bin) (h1 : bin ≤ MAX_BIN) :
    (∃ l : Nat, l < BIN_OFFSETS.length ∧
      ((BIN_OFFSETS.getD l 0 : Nat) : Int) ≤ bin ∧
      (∀ i : Nat, i < l → bin < ((BIN_OFFSETS.getD i 0 : Nat) : Int)) ∧
      covered_region bin = .ok (some
        ((bin - ((BIN_OFFSETS.getD l 0 : Nat) : Int)) *
            2 ^ (SHIFT_FIRST + SHIFT_NEXT * l) + 1,
         (bin + 1 - ((BIN_OFFSETS.getD l 0 : Nat) : Int)) *
            2 ^ (SHIFT_FIRST + SHIFT_NEXT * l)))) ∧
    covered_region 0 = .ok (some (1, MAX_POSITION)) := by
  have h1' : bin ≤ 4680 := by rw [MAX_BIN_eq] at h1; exact h1
  refine ⟨?_, rfl⟩
  by_cases c0 : 585 ≤ bin
  · refine ⟨0, by decide, ?_, ?_, ?_⟩
    · norm_num [BIN_OFFSETS, List.getD_cons_zero]
      omega
    · intro i hi
      omega
    · unfold covered_region
      rw [if_neg (by simp only [MAX_BIN_eq]; omega), coveredScan_eval,
        if_pos c0]
      norm_num [BIN_OFFSETS, SHIFT_FIRST, SHIFT_NEXT, List.getD_cons_zero,
        List.getD_cons_succ]
  · by_cases c1 : 73 ≤ bin
    · refine ⟨1, by decide, ?_, ?_, ?_⟩
      · norm_num [BIN_OFFSETS, List.getD_cons_zero, List.getD_cons_succ]
        omega
      · intro i hi
        interval_cases i
        norm_num [BIN_OFFSETS, List.getD_cons_zero]
        omega
      · unfold covered_region
        rw [if_neg (by simp only [MAX_BIN_eq]; omega), coveredScan_eval,
          if_neg c0, if_pos c1]
        norm_num [BIN_OFFSETS, SHIFT_FIRST, SHIFT_NEXT, List.getD_cons_zero,
          List.getD_cons_succ]
    · by_cases c2 : 9 ≤ bin
      · refine ⟨2, by decide, ?_, ?_, ?_⟩
        · norm_num [BIN_OFFSETS, List.getD_cons_zero, List.getD_cons_succ]
          omega
        · intro i hi
          interval_cases i <;>
            norm_num [BIN_OFFSETS, List.getD_cons_zero, List.getD_cons_succ] <;>
            omega
        · unfold covered_region
          rw [if_neg (by simp only [MAX_BIN_eq]; omega), coveredScan_eval,
            if_neg c0, if_neg c1, if_pos c2]
          norm_num [BIN_OFFSETS, SHIFT_FIRST, SHIFT_NEXT, List.getD_cons_zero,
            List.getD_cons_succ]
      · by_cases c3 : 1 ≤ bin
        · refine ⟨3, by decide, ?_, ?_, ?_⟩
          · norm_num [BIN_OFFSETS, List.getD_cons_zero, List.getD_cons_succ]
            omega
          · intro i hi
            interval_cases i <;>
              norm_num [BIN_OFFSETS, List.getD_cons_zero, List.getD_cons_succ] <;>
              omega
          · unfold covered_region
            rw [if_neg (by simp only [MAX_BIN_eq]; omega), coveredScan_eval,
              if_neg c0, if_neg c1, if_neg c2, if_pos c3]
            norm_num [BIN_OFFSETS, SHIFT_FIRST, SHIFT_NEXT, List.getD_cons_zero,
              List.getD_cons_succ]
        · refine ⟨4, by decide, ?_, ?_, ?_⟩
          · norm_num [BIN_OFFSETS, List.getD_cons_zero, List.getD_cons_succ]
            omega
          · intro i hi
            interval_cases i <;>
              norm_num [BIN_OFFSETS, List.getD_cons_zero, List.getD_cons_succ] <;>
              omega
          · unfold covered_region
            rw [if_neg (by simp only [MAX_BIN_eq]; omega), coveredScan_eval,
              if_neg c0, if_neg c1, if_neg c2, if_neg c3, if_pos h0]
            norm_num [BIN_OFFSETS, SHIFT_FIRST, SHIFT_NEXT, List.getD_cons_zero,
              List.getD_cons_succ]

/-- Witness for C6 at the concrete bin 4680 (the maximum bin). -/
theorem C6_inverse_decode_witness :
    (∃ l : Nat, l < BIN_OFFSETS.length ∧
      ((BIN_OFFSETS.getD l 0 : Nat) : Int) ≤ 4680 ∧
      (∀ i : Nat, i < l → (4680 : Int) < ((BIN_OFFSETS.getD i 0 : Nat) : Int)) ∧
      covered_region 4680 = .ok (some
        (((4680 : Int) - ((BIN_OFFSETS.getD l 0 : Nat) : Int)) *
            2 ^ (SHIFT_FIRST + SHIFT_NEXT * l) + 1,
         ((4680 : Int) + 1 - ((BIN_OFFSETS.getD l 0 : Nat) : Int)) *
            2 ^ (SHIFT_FIRST + SHIFT_NEXT * l)))) ∧
    covered_region 0 = .ok (some (1, MAX_POSITION)) :=
  C6_inverse_decode 4680 (by decide) (by decide)

/-- C7: `covered_region` fails with `OutOfRange` exactly when the bin is
negative or exceeds `MAX_BIN`, the maximum bin derivable from the
configuration as `BIN_OFFSETS[0] + ((MAX_POSITION - 1) >> SHIFT_FIRST)`;
in particular `covered_region (-1)` fails with `OutOfRange` and
`assign_bin 0 1` fails with `OutOfRange`. -/
theorem C7_out_of_range_rejection (bin : Int) :
    (covered_region bin = .error .outOfRange ↔ bin < 0 ∨ MAX_BIN < bin) ∧
    MAX_BIN = ((BIN_OFFSETS.headD 0 : Nat) : Int) +
      (MAX_POSITION - 1) / 2 ^ SHIFT_FIRST ∧
    covered_region (-1) = .error .outOfRange ∧
    assign_bin 0 1 = .error .outOfRange := by
  refine ⟨?_, rfl, rfl, rfl⟩
  unfold covered_region
  by_cases hP : bin < 0 ∨ bin > MAX_BIN
  · rw [if_pos hP]
    exact ⟨fun _ => hP, fun _ => rfl⟩
  · rw [if_neg hP]
    exact ⟨fun h => absurd h (by simp), fun h => absurd h hP⟩

/-- Witness for C7 at the concrete bin -1. -/
theorem C7_out_of_range_rejection_witness :
    covered_region (-1) = .error .outOfRange ↔
      ((-1 : Int) < 0 ∨ MAX_BIN < -1) :=
  (C7_out_of_range_rejection (-1)).1


end RegionBinning
